import Mathlib

/-!
Verification development for the C++ code generator of the sixtyfps compiler
(`sixtyfps_compiler/generator/cpp.rs`).

The generator's own code is embedded directly from the source.  The modules it
uses (`crate::diagnostics`, `crate::object_tree`, `crate::typeregister`,
`crate::expression_tree`) and the tree flattener `super::build_array_helper`
are not part of the provided sources; those definitions are modelled from the
specification and marked `Modelled from the spec:` in their doc comments.
-/

/-- Modelled from the spec: a source span used only for diagnostics
(`crate::diagnostics::Span`). -/
structure Span where
  offset : Nat
deriving DecidableEq, Repr

/-- Modelled from the spec: `crate::diagnostics::CompilerDiagnostic`,
a message plus a source span. -/
structure CompilerDiagnostic where
  message : String
  span : Span
deriving DecidableEq, Repr

/-- Modelled from the spec: `crate::diagnostics::Diagnostics`, the accumulating
append-only diagnostics sink. -/
structure Diagnostics where
  inner : List CompilerDiagnostic
deriving DecidableEq, Repr

/-- Modelled from the spec: appending one diagnostic to the sink
(`Diagnostics::push_compiler_error`). -/
def Diagnostics.push_compiler_error (d : Diagnostics) (e : CompilerDiagnostic) : Diagnostics :=
  ⟨d.inner ++ [e]⟩

/-- Modelled from the spec: the derived `has_error` predicate of the sink. -/
def Diagnostics.has_error (d : Diagnostics) : Bool :=
  !d.inner.isEmpty

/-- Modelled from the spec: the built-in view of a base type, carrying the
class name and the runtime type-descriptor (vtable) symbol used by the
generator (`item.base_type.as_builtin().class_name` / `.vtable_symbol`). -/
structure BuiltinElement where
  class_name : String
  vtable_symbol : String
deriving DecidableEq, Repr

/-- Modelled from the spec: `crate::typeregister::Type` — the semantic types:
the scalar property types consumed by the target-type mapper, a built-in
widget type, a component used as a base type (the real variant holds the
component itself; only its presence matters here), signals, and the invalid
type. -/
inductive Ty where
  | Float32
  | Int32
  | String
  | Color
  | Bool
  | Builtin (b : BuiltinElement)
  | Component (name : String)
  | Signal
  | Invalid
deriving DecidableEq, Repr

/-- Modelled from the spec: `Type::as_builtin`, the built-in view of a base
type.  In the source a non-built-in base type is a precondition violation
(the call panics); that outcome is modelled as `none`. -/
def Ty.as_builtin : Ty → Option BuiltinElement
  | .Builtin b => some b
  | _ => none

/-- Modelled from the spec: `crate::object_tree::PropertyDeclaration` as used
by the generator — the semantic property type plus the source location of the
type, used only for diagnostics. -/
structure PropertyDeclaration where
  property_type : Ty
  type_location : Span
deriving DecidableEq, Repr

namespace cpp_ast

/-- Embeds `cpp_ast::Function`: function or method of the intermediate C++
model. -/
structure Function where
  name : String
  signature : String
  is_constructor : Bool
  is_static : Bool
  statements : Option (List String)
deriving DecidableEq, Repr

/-- Embeds `cpp_ast::Var`: a variable or member declaration. -/
structure Var where
  ty : String
  name : String
  init : Option String
deriving DecidableEq, Repr

mutual
/-- Embeds `cpp_ast::Declaration`: a top-level or member declaration. -/
inductive Declaration where
  | Struct (s : Struct)
  | Function (f : Function)
  | Var (v : Var)
/-- Embeds `cpp_ast::Struct`: a struct name plus its ordered members. -/
inductive Struct where
  | mk (name : String) (members : List Declaration)
end

/-- Name of a struct. -/
def Struct.name : Struct → String
  | .mk n _ => n

/-- Members of a struct, in insertion order. -/
def Struct.members : Struct → List Declaration
  | .mk _ m => m

/-- Embeds `cpp_ast::File`: include directives plus top-level declarations. -/
structure File where
  includes : List String
  declarations : List Declaration

end cpp_ast

/-- Embeds `impl CppType for PropertyDeclaration` (cpp.rs lines 135-149): the
fixed target-type map; every type outside the supported subset produces a
diagnostic carrying the declaration's type location. -/
def PropertyDeclaration.cpp_type (self : PropertyDeclaration) :
    Except CompilerDiagnostic String :=
  match self.property_type with
  | .Float32 => .ok "float"
  | .Int32 => .ok "int"
  | .String => .ok "sixtyfps::SharedString"
  | .Color => .ok "uint32_t"
  | .Bool => .ok "bool"
  | _ => .error ⟨"Cannot map property type to C++", self.type_location⟩

/-- Embeds `crate::expression_tree::Expression` as used by the generator; the
module is not among the provided sources, so the variant payloads are modelled
from the spec: string literal, number literal, property reference, signal
reference, cast, and an open-ended catch-all for shapes not lowered by this
backend.  The number literal (an `f64` in the source) is modelled by an
integral value, and the property reference carries the referenced property's
resolved semantic type (the source resolves it through the referenced
element); neither detail is inspected by the claims. -/
inductive Expression where
  | StringLiteral (s : String)
  | NumberLiteral (n : Int)
  | PropertyReference (component : String) (element : String) (name : String) (resolved_ty : Ty)
  | SignalReference (component : String) (element : String) (name : String)
  | Cast (from_ : Expression) (to_ : Ty)
  | Other (descr : String)
deriving DecidableEq, Repr

/-- Modelled from the spec: `Expression::ty()` — the semantic type of an
expression: string literals are strings, number literals are numeric, a
property reference has the referenced property's type, a cast has its target
type. -/
def Expression.ty : Expression → Ty
  | .StringLiteral _ => .String
  | .NumberLiteral _ => .Float32
  | .PropertyReference _ _ _ t => t
  | .SignalReference _ _ _ => .Signal
  | .Cast _ t => t
  | .Other _ => .Invalid

/-- Stands in for the `{:?}` debug formatting used by the source's inline
error marker (the `Debug` derive lives in the missing `expression_tree`
module); the exact rendering is irrelevant to the claims. -/
def Expression.debug_str : Expression → String
  | .StringLiteral s => "StringLiteral(" ++ s ++ ")"
  | .NumberLiteral n => "NumberLiteral(" ++ toString n ++ ")"
  | .PropertyReference _ _ n _ => "PropertyReference(" ++ n ++ ")"
  | .SignalReference _ _ n => "SignalReference(" ++ n ++ ")"
  | .Cast f _ => "Cast(" ++ f.debug_str ++ ")"
  | .Other d => d

/-- Embeds Rust's `char::escape_default`, applied by `compile_expression` to
string-literal contents: tab, carriage return, newline, backslash and both
quote characters receive a backslash escape, printable ASCII is kept verbatim,
and every other character is rendered as a Rust `\u` escape — backslash, `u`,
and the minimal lowercase hex digits of the code point between braces. -/
def char_escape_default (c : Char) : String :=
  if c = '\t' then "\\t"
  else if c = '\r' then "\\r"
  else if c = '\n' then "\\n"
  else if c = '\\' then "\\\\"
  else if c = Char.ofNat 0x27 then "\\" ++ String.singleton (Char.ofNat 0x27)
  else if c = '"' then "\\\""
  else if 0x20 ≤ c.toNat ∧ c.toNat ≤ 0x7e then String.singleton c
  else "\\u\x7b" ++ String.mk (Nat.toDigits 16 c.toNat) ++ "\x7d"

/-- Embeds `str::escape_default` as used at cpp.rs line 304: every character of
the literal is escaped with `char_escape_default` and the results are
concatenated. -/
def escape_default (s : String) : String :=
  String.mk (s.data.flatMap (fun c => (char_escape_default c).data))

/-- Embeds `compile_expression` (cpp.rs lines 301-318). -/
def compile_expression : Expression → String
  | .StringLiteral s => "sixtyfps::SharedString(\"" ++ escape_default s ++ "\")"
  | .NumberLiteral n => toString n
  | .PropertyReference _ _ name _ => name ++ ".get(nullptr)"
  | .Cast from_ to_ =>
    let f := compile_expression from_
    match from_.ty, to_ with
    | .Float32, .String => "sixtyfps::SharedString::from_number(" ++ f ++ ")"
    | .Int32, .String => "sixtyfps::SharedString::from_number(" ++ f ++ ")"
    | _, _ => f
  | e => "\n#error: unsupported expression " ++ e.debug_str ++ "\n"

/-- Embeds `crate::object_tree::Element` as used by the generator (the module
is not among the provided sources; the fields are modelled from the spec §3):
identifier, base type, declared properties, declared signals, bindings, and
the ordered children.  The source's maps are modelled as association lists in
insertion order. -/
inductive Element where
  | mk (id : String) (base_type : Ty)
      (property_declarations : List (String × PropertyDeclaration))
      (signals_declaration : List String)
      (bindings : List (String × Expression))
      (children : List Element)

/-- Identifier of an element, unique within its component. -/
def Element.id : Element → String
  | .mk i _ _ _ _ _ => i

/-- Base type of an element. -/
def Element.base_type : Element → Ty
  | .mk _ b _ _ _ _ => b

/-- Properties declared directly on this element. -/
def Element.property_declarations : Element → List (String × PropertyDeclaration)
  | .mk _ _ p _ _ _ => p

/-- Signals declared directly on this element. -/
def Element.signals_declaration : Element → List String
  | .mk _ _ _ s _ _ => s

/-- Bindings of this element: property or signal name to bound expression. -/
def Element.bindings : Element → List (String × Expression)
  | .mk _ _ _ _ b _ => b

/-- Children of this element, in declaration order. -/
def Element.children : Element → List Element
  | .mk _ _ _ _ _ c => c

/-- Embeds `crate::object_tree::Component`: identifier plus root element. -/
structure Component where
  id : String
  root_element : Element

/-- Embeds the `signal_accessor_prefix` computation of `handle_item`
(cpp.rs line 168): empty exactly when the signal name is declared on the
element itself, otherwise the element's identifier followed by a dot. -/
def signal_accessor_prefix_of (item : Element) (s : String) : String :=
  if item.signals_declaration.contains s then "" else item.id ++ "."

/-- Embeds the `accessor_prefix` computation of `handle_item` (cpp.rs
line 180): empty exactly when the property name is declared on the element
itself, otherwise the element's identifier followed by a dot. -/
def accessor_prefix_of (item : Element) (s : String) : String :=
  if (item.property_declarations.map Prod.fst).contains s then "" else item.id ++ "."

/-- Embeds one constructor statement built by `handle_item` (cpp.rs lines
164-195): a signal-reference binding installs a forwarding handler on the
element's signal, any other binding sets the property to the compiled
expression.  `struct_name` is `main_struct.name`. -/
def binding_statement (struct_name : String) (item : Element) (s : String)
    (i : Expression) : String :=
  match i with
  | .SignalReference _ _ name =>
    signal_accessor_prefix_of item s ++ s ++
      ".set_handler([](const void *root) \x7b reinterpret_cast<const " ++ struct_name ++
      "*>(root)->" ++ name ++ ".emit(root); \x7d);"
  | _ =>
    accessor_prefix_of item s ++ s ++ ".set(" ++ compile_expression i ++ ");"

/-- Embeds `handle_item` (cpp.rs lines 151-200), phrased over a list of sibling
elements: for each element, push its member variable onto the struct, append
its binding statements to the constructor body, then recurse into its
children, then continue with the later siblings.  Taking the built-in view of
a non-built-in base type is a precondition violation in the source (see
`Ty.as_builtin`), propagated here as `none`.  The `global_properties`
parameter is threaded through and never consulted, exactly as in the
source. -/
def handle_items : List Element → List String → cpp_ast.Struct → List String →
    Option (cpp_ast.Struct × List String)
  | [], _, main_struct, init => some (main_struct, init)
  | .mk id base props sigs binds cs :: rest, global_properties, main_struct, init =>
    match base.as_builtin with
    | none => none
    | some b =>
      let item := Element.mk id base props sigs binds cs
      let ms := cpp_ast.Struct.mk main_struct.name (main_struct.members ++
        [cpp_ast.Declaration.Var ⟨"sixtyfps::" ++ b.class_name, id, none⟩])
      let init1 := init ++ binds.map (fun p => binding_statement main_struct.name item p.1 p.2)
      match handle_items cs global_properties ms init1 with
      | none => none
      | some (ms2, init2) => handle_items rest global_properties ms2 init2

/-- Embeds `handle_item` applied to a single element and, recursively, its
children (cpp.rs lines 151-200). -/
def handle_item (item : Element) (global_properties : List String)
    (main_struct : cpp_ast.Struct) (init : List String) :
    Option (cpp_ast.Struct × List String) :=
  handle_items [item] global_properties main_struct init

/-- Embeds the property-declaration loop of `generate` (cpp.rs lines 210-224):
map each declared property's type — on failure push the diagnostic and
substitute the empty placeholder — record the declared name, and build the
reactive-property member.  Returns the final diagnostics, the declared names
and the member variables, in declaration order. -/
def property_members_pass :
    List (String × PropertyDeclaration) → Diagnostics →
    Diagnostics × List String × List cpp_ast.Declaration
  | [], diag => (diag, [], [])
  | (cpp_name, property_decl) :: rest, diag =>
    let cd :=
      match property_decl.cpp_type with
      | .ok t => (t, diag)
      | .error err => ("", diag.push_compiler_error err)
    let r := property_members_pass rest cd.2
    (r.1, cpp_name :: r.2.1,
      cpp_ast.Declaration.Var ⟨"sixtyfps::Property<" ++ cd.1 ++ ">", cpp_name, none⟩ :: r.2.2)

/-- Number of elements in a forest, counting every element of every tree. -/
def forest_size : List Element → Nat
  | [] => 0
  | .mk _ _ _ _ _ cs :: rest => 1 + forest_size cs + forest_size rest

/-- Sum, over a forest, of the number of strict descendants of each root —
equivalently the number of descriptors the flattener emits while laying out
the children of these roots. -/
def forests_below : List Element → Nat
  | [] => 0
  | .mk _ _ _ _ _ cs :: rest => forest_size cs + forests_below rest

/-- Modelled from the spec: the contiguous block of direct-children
descriptors of one node (§4.3).  The first child's recorded children-offset
points past the end of the current block; each later child's offset
additionally skips the full subtrees of its earlier siblings. -/
def child_block : List Element → Nat → List (Element × Nat)
  | [], _ => []
  | .mk id base props sigs binds cs :: rest, off =>
    (Element.mk id base props sigs binds cs, off) :: child_block rest (off + forest_size cs)

/-- Modelled from the spec: the depth-first deferred descent of the flattener
(§4.3).  For each element of the list in order: its children's block is
emitted at the running next-free-slot position, followed recursively by the
descents of those children, before moving on to the next element. -/
def descend_blocks : List Element → Nat → List (Element × Nat)
  | [], _ => []
  | .mk _ _ _ _ _ cs :: rest, off =>
    (child_block cs (off + cs.length) ++ descend_blocks cs (off + cs.length))
      ++ descend_blocks rest (off + forest_size cs)

/-- Modelled from the spec: `super::build_array_helper` (the generator module
is not among the provided sources): visit the root with children-offset 1,
then lay out every node's direct children as one contiguous block in
declaration order, descending depth first with a running next-free-slot
counter (§4.3).  The produced list is the sequence of `(element,
children_offset)` callback invocations, in emission order. -/
def build_array_helper (component : Component) : List (Element × Nat) :=
  (component.root_element, 1) :: descend_blocks [component.root_element] 1

/-- Embeds one `sixtyfps::make_item_node(...)` entry of the tree array
(cpp.rs lines 265-274); `none` when the element's base type has no built-in
view. -/
def item_node_str (component_id : String) (item : Element) (children_offset : Nat) :
    Option String :=
  (item.base_type.as_builtin).map (fun b =>
    "sixtyfps::make_item_node(offsetof(" ++ component_id ++ ", " ++ item.id ++
      "), &sixtyfps::" ++ b.vtable_symbol ++ ", " ++ toString item.children.length ++
      ", " ++ toString children_offset ++ ")")

/-- Embeds the `tree_array` accumulation of `generate` (cpp.rs lines 263-275):
fold the flattener's callbacks into one string, comma-separating consecutive
entries. -/
def tree_array_str (component : Component) : Option String :=
  (build_array_helper component).foldlM
    (fun acc p => (item_node_str component.id p.1 p.2).map
      (fun s => acc ++ (if acc.isEmpty then "" else ", ") ++ s)) ""

/-- Embeds `generate` (cpp.rs lines 202-299).  The outer `Option` is `none`
exactly on a precondition violation — an element whose base type has no
built-in view, a panic in the source; otherwise the result pairs the final
diagnostics with the output file, which is suppressed (`none`) exactly when
those diagnostics report an error. -/
def generate (component : Component) (diag : Diagnostics) :
    Option (Option cpp_ast.File × Diagnostics) :=
  let includes := ["<sixtyfps.h>"]
  let p := property_members_pass component.root_element.property_declarations diag
  let main_struct := cpp_ast.Struct.mk component.id p.2.2
  match handle_items [component.root_element] p.2.1 main_struct [] with
  | none => none
  | some (ms, init) =>
    let ms1 := cpp_ast.Struct.mk ms.name (ms.members
      ++ component.root_element.signals_declaration.map
        (fun s => cpp_ast.Declaration.Var ⟨"sixtyfps::Signal", s, none⟩)
      ++ [cpp_ast.Declaration.Function ⟨component.id, "()", true, false, some init⟩,
        cpp_ast.Declaration.Function
          ⟨"tree_fn", "(sixtyfps::ComponentRef) -> const sixtyfps::ItemTreeNode* ",
            false, true, none⟩,
        cpp_ast.Declaration.Var
          ⟨"static const sixtyfps::ComponentVTable", "component_type", none⟩])
    match tree_array_str component with
    | none => none
    | some tree_array =>
      let x : cpp_ast.File :=
        ⟨includes,
          [cpp_ast.Declaration.Struct ms1,
            cpp_ast.Declaration.Function
              ⟨component.id ++ "::tree_fn",
                "(sixtyfps::ComponentRef) -> const sixtyfps::ItemTreeNode* ", false, false,
                some ["static const sixtyfps::ItemTreeNode children[] \x7b",
                  "    " ++ tree_array ++ " \x7d;",
                  "return children;"]⟩,
            cpp_ast.Declaration.Var
              ⟨"const sixtyfps::ComponentVTable", component.id ++ "::component_type",
                some "\x7b nullptr, sixtyfps::dummy_destory, tree_fn \x7d"⟩]⟩
      if p.1.has_error then some (none, p.1) else some (some x, p.1)

/-- Preorder traversal of a forest: each element before its children, children
before later siblings. -/
def preorderL : List Element → List Element
  | [] => []
  | .mk id base props sigs binds cs :: rest =>
    Element.mk id base props sigs binds cs :: (preorderL cs ++ preorderL rest)

/-- Every element of the forest has a built-in base type. -/
def all_builtinL : List Element → Bool
  | [] => true
  | .mk _ base _ _ _ cs :: rest =>
    (base.as_builtin).isSome && all_builtinL cs && all_builtinL rest

/-- Membership of the supported subset of the target-type map. -/
def supported_type : Ty → Bool
  | .Float32 => true
  | .Int32 => true
  | .String => true
  | .Color => true
  | .Bool => true
  | _ => false

/-- The prefix the generator attaches to one binding's accessor (`handle_item`,
cpp.rs lines 167-184): the signal rule for signal-reference bindings, the
property rule for every other binding. -/
def binding_prefix_of (item : Element) (s : String) (i : Expression) : String :=
  match i with
  | .SignalReference _ _ _ => signal_accessor_prefix_of item s
  | _ => accessor_prefix_of item s

/-- Follows the claim's words (C1): in every element of the component tree,
a binding's accessor is left unprefixed exactly when the bound name is
declared on the owning component's root element. -/
def unprefixed_iff_root_scope (component : Component) : Prop :=
  ∀ e ∈ preorderL [component.root_element], ∀ p ∈ e.bindings,
    (binding_prefix_of e p.1 p.2 = "" ↔
      (match p.2 with
        | .SignalReference _ _ _ =>
          component.root_element.signals_declaration.contains p.1
        | _ =>
          (component.root_element.property_declarations.map Prod.fst).contains p.1) = true)

/-- The element member variable `handle_item` pushes for one element
(cpp.rs lines 157-161), described through the built-in view of its base
type. -/
def element_member_var (e : Element) : cpp_ast.Declaration :=
  cpp_ast.Declaration.Var
    ⟨"sixtyfps::" ++ ((e.base_type.as_builtin).map BuiltinElement.class_name).getD "",
      e.id, none⟩

/-- True for a character an octal digit. -/
def is_oct_digit (c : Char) : Bool :=
  '0' ≤ c && c ≤ '7'

/-- True for a character a hexadecimal digit. -/
def is_hex_digit (c : Char) : Bool :=
  ('0' ≤ c && c ≤ '9') || ('a' ≤ c && c ≤ 'f') || ('A' ≤ c && c ≤ 'F')

/-- Numeric value of a hexadecimal digit. -/
def hex_val (c : Char) : Nat :=
  if '0' ≤ c && c ≤ '9' then c.toNat - '0'.toNat
  else if 'a' ≤ c && c ≤ 'f' then c.toNat - 'a'.toNat + 10
  else c.toNat - 'A'.toNat + 10

/-- Numeric value of an octal digit. -/
def oct_val (c : Char) : Nat :=
  c.toNat - '0'.toNat

/-- Follows the claim's words (C7): decode one C++ escape sequence, given the
characters after the backslash — a simple escape, an octal escape of one to
three octal digits, a hexadecimal escape with at least one hex digit, or a
universal character name with exactly four (`u`) or eight (`U`) hex digits.
Returns the decoded character and the remaining input, or `none` when the
backslash does not begin a C++ escape sequence. -/
def cpp_escape_step : List Char → Option (Char × List Char)
  | [] => none
  | d :: r =>
    if d = 'n' then some ('\n', r)
    else if d = 't' then some ('\t', r)
    else if d = 'r' then some ('\r', r)
    else if d = 'a' then some ('\x07', r)
    else if d = 'b' then some ('\x08', r)
    else if d = 'f' then some ('\x0c', r)
    else if d = 'v' then some ('\x0b', r)
    else if d = Char.ofNat 0x27 then some (Char.ofNat 0x27, r)
    else if d = '"' then some ('"', r)
    else if d = '?' then some ('?', r)
    else if d = '\\' then some ('\\', r)
    else if d = 'x' then
      if (r.takeWhile is_hex_digit).isEmpty then none
      else
        some (Char.ofNat ((r.takeWhile is_hex_digit).foldl
          (fun a h => 16 * a + hex_val h) 0), r.dropWhile is_hex_digit)
    else if d = 'u' then
      match r with
      | h1 :: h2 :: h3 :: h4 :: r2 =>
        if is_hex_digit h1 && is_hex_digit h2 && is_hex_digit h3 && is_hex_digit h4 then
          some (Char.ofNat
            (4096 * hex_val h1 + 256 * hex_val h2 + 16 * hex_val h3 + hex_val h4), r2)
        else none
      | _ => none
    else if d = 'U' then
      match r with
      | h1 :: h2 :: h3 :: h4 :: h5 :: h6 :: h7 :: h8 :: r2 =>
        if is_hex_digit h1 && is_hex_digit h2 && is_hex_digit h3 && is_hex_digit h4 &&
            is_hex_digit h5 && is_hex_digit h6 && is_hex_digit h7 && is_hex_digit h8 then
          some (Char.ofNat
            (268435456 * hex_val h1 + 16777216 * hex_val h2 + 1048576 * hex_val h3 +
              65536 * hex_val h4 + 4096 * hex_val h5 + 256 * hex_val h6 +
              16 * hex_val h7 + hex_val h8), r2)
        else none
      | _ => none
    else if is_oct_digit d then
      match r with
      | d2 :: r2 =>
        if is_oct_digit d2 then
          match r2 with
          | d3 :: r3 =>
            if is_oct_digit d3 then
              some (Char.ofNat (64 * oct_val d + 8 * oct_val d2 + oct_val d3), r3)
            else some (Char.ofNat (8 * oct_val d + oct_val d2), r2)
          | [] => some (Char.ofNat (8 * oct_val d + oct_val d2), [])
        else some (Char.ofNat (oct_val d), r)
      | [] => some (Char.ofNat (oct_val d), [])
    else none

/-- Follows the claim's words (C7): decoding of a C++ string-literal body,
driven by a step budget so that the recursion is structural (every step
consumes at least one character, so a budget of the input length suffices —
see `cpp_unescape`).  A raw double quote, a raw newline, or a backslash that
does not begin a C++ escape sequence rejects the body; otherwise the decoded
character sequence is returned.  This is the C++ (here C++17) escape grammar
that the claim's "escaped according to the target language's string-literal
syntax" refers to. -/
def cpp_unescape_fuel : Nat → List Char → Option (List Char)
  | _, [] => some []
  | 0, _ :: _ => none
  | fuel + 1, c :: rest =>
    if c = '\\' then
      match cpp_escape_step rest with
      | none => none
      | some (ch, r) => (cpp_unescape_fuel fuel r).map (fun l => ch :: l)
    else if c = '"' ∨ c = '\n' then none
    else (cpp_unescape_fuel fuel rest).map (fun l => c :: l)

/-- Follows the claim's words (C7): decode a C++ string-literal body; the
length of the input is a sufficient step budget because every step of
`cpp_unescape_fuel` consumes at least one character. -/
def cpp_unescape (l : List Char) : Option (List Char) :=
  cpp_unescape_fuel l.length l

/-- Test fixture: a built-in window base type. -/
def exWindow : BuiltinElement := ⟨"Window", "WindowVTable"⟩

/-- Test fixture: a built-in rectangle base type. -/
def exRectangle : BuiltinElement := ⟨"Rectangle", "RectangleVTable"⟩

/-- Test fixture: a child element that declares a property locally and binds
it; the property is not declared on its component root. -/
def ex_child_with_local_property : Element :=
  .mk "b" (.Builtin exRectangle) [("foo", ⟨.Int32, ⟨3⟩⟩)] [] [("foo", .NumberLiteral 42)] []

/-- Test fixture: a component whose root declares nothing while its child
declares and binds a property of its own. -/
def ex_component_local_scope : Component :=
  ⟨"App", .mk "root" (.Builtin exWindow) [] [] [] [ex_child_with_local_property]⟩

/-- Test fixture: a minimal one-element component. -/
def ex_component_plain : Component :=
  ⟨"Hello", .mk "root" (.Builtin exWindow) [] [] [] []⟩

/-- Test fixture: a child element with one property binding. -/
def ex_child_bound : Element :=
  .mk "c" (.Builtin exRectangle) [] [] [("width", .NumberLiteral 5)] []

/-- Test fixture: a component with one declared property and one bound child
element. -/
def ex_component_two : Component :=
  ⟨"Two", .mk "root" (.Builtin exWindow) [("p", ⟨.Int32, ⟨1⟩⟩)] [] [] [ex_child_bound]⟩

/-- Test fixture: a property declaration whose semantic type has no C++
mapping. -/
def ex_pd_bad : PropertyDeclaration := ⟨.Signal, ⟨5⟩⟩

/-- Test fixture: a component declaring one unmappable property. -/
def ex_component_badprop : Component :=
  ⟨"Bad", .mk "root" (.Builtin exWindow) [("q", ex_pd_bad)] [] [] []⟩

/-- Structural induction over element forests. -/
theorem forest_ind {P : List Element → Prop} (h0 : P [])
    (h1 : ∀ id base props sigs binds cs rest,
      P cs → P rest → P (.mk id base props sigs binds cs :: rest)) : ∀ l, P l
  | [] => h0
  | .mk id base props sigs binds cs :: rest =>
    h1 id base props sigs binds cs rest (forest_ind h0 h1 cs) (forest_ind h0 h1 rest)

/-- Eta rule for the mutual-inductive struct type. -/
theorem cpp_ast.Struct.eta : ∀ s : cpp_ast.Struct, s = cpp_ast.Struct.mk s.name s.members
  | .mk _ _ => rfl

/-- Characterization of a successful `handle_items` run: the struct keeps its
name and gains the element member variables in preorder, and the constructor
body gains each element's binding statements in the same preorder. -/
theorem handle_items_spec : ∀ (l : List Element) (g : List String)
    (ms : cpp_ast.Struct) (init : List String) (r : cpp_ast.Struct × List String),
    handle_items l g ms init = some r →
    r.1 = cpp_ast.Struct.mk ms.name (ms.members ++ (preorderL l).map element_member_var) ∧
    r.2 = init ++ (preorderL l).flatMap
      (fun e => e.bindings.map (fun p => binding_statement ms.name e p.1 p.2)) := by
  intro l
  induction l using forest_ind with
  | h0 =>
    intro g ms init r h
    simp only [handle_items, Option.some.injEq] at h
    subst h
    refine ⟨?_, ?_⟩
    · simpa [preorderL] using cpp_ast.Struct.eta ms
    · simp [preorderL]
  | h1 id base props sigs binds cs rest ih1 ih2 =>
    intro g ms init r h
    simp only [handle_items] at h
    split at h
    · exact absurd h (by simp)
    · rename_i b hb
      split at h
      · exact absurd h (by simp)
      · rename_i ms2 init2 heq2
        have s1 := ih1 g _ _ (ms2, init2) heq2
        have s2 := ih2 g ms2 init2 r h
        have s1a : ms2 = cpp_ast.Struct.mk ms.name (ms.members ++
            (cpp_ast.Declaration.Var ⟨"sixtyfps::" ++ b.class_name, id, none⟩ ::
            (preorderL cs).map element_member_var)) := by
          have := s1.1
          simpa [cpp_ast.Struct.name, cpp_ast.Struct.members, List.append_assoc] using this
        have s1b : init2 = init ++ (binds.map (fun p => binding_statement ms.name
            (Element.mk id base props sigs binds cs) p.1 p.2) ++
            (preorderL cs).flatMap (fun e => e.bindings.map
              (fun p => binding_statement ms.name e p.1 p.2))) := by
          have := s1.2
          simpa [List.append_assoc] using this
        have hname : ms2.name = ms.name := by rw [s1a]; rfl
        have hmem : ms2.members = ms.members ++
            (cpp_ast.Declaration.Var ⟨"sixtyfps::" ++ b.class_name, id, none⟩ ::
            (preorderL cs).map element_member_var) := by
          rw [s1a]; rfl
        have hvar : element_member_var (Element.mk id base props sigs binds cs) =
            cpp_ast.Declaration.Var ⟨"sixtyfps::" ++ b.class_name, id, none⟩ := by
          simp [element_member_var, Element.base_type, Element.id, hb]
        refine ⟨?_, ?_⟩
        · rw [s2.1, hname, hmem]
          simp [preorderL, hvar, List.append_assoc]
        · rw [s2.2, s1b, hname]
          simp [preorderL, Element.bindings, List.append_assoc]

/-- A `handle_items` run succeeds exactly when every element of the forest has
a built-in base type. -/
theorem handle_items_isSome : ∀ (l : List Element) (g : List String)
    (ms : cpp_ast.Struct) (init : List String),
    (handle_items l g ms init).isSome = all_builtinL l := by
  intro l
  induction l using forest_ind with
  | h0 => intro g ms init; simp [handle_items, all_builtinL]
  | h1 id base props sigs binds cs rest ih1 ih2 =>
    intro g ms init
    simp only [handle_items, all_builtinL]
    split
    · rename_i hb
      simp [hb]
    · rename_i b hb
      rw [hb]
      simp only [Option.isSome_some, Bool.true_and]
      split
      · rename_i heq2
        have hAll : all_builtinL cs = (handle_items cs g
            (cpp_ast.Struct.mk ms.name (ms.members ++
              [cpp_ast.Declaration.Var ⟨"sixtyfps::" ++ b.class_name, id, none⟩]))
            (init ++ binds.map (fun p => binding_statement ms.name
              (Element.mk id base props sigs binds cs) p.1 p.2))).isSome := (ih1 g _ _).symm
        rw [heq2] at hAll
        simp only [Option.isSome_none] at hAll
        simp [hAll]
      · rename_i ms2 init2 heq2
        have hAll : all_builtinL cs = (handle_items cs g
            (cpp_ast.Struct.mk ms.name (ms.members ++
              [cpp_ast.Declaration.Var ⟨"sixtyfps::" ++ b.class_name, id, none⟩]))
            (init ++ binds.map (fun p => binding_statement ms.name
              (Element.mk id base props sigs binds cs) p.1 p.2))).isSome := (ih1 g _ _).symm
        rw [heq2] at hAll
        simp only [Option.isSome_some] at hAll
        rw [hAll, Bool.true_and]
        exact ih2 g ms2 init2

/-- Characterization of a successful `generate` run: the final diagnostics are
those of the property-declaration pass, the output file is suppressed exactly
when those diagnostics report an error, and any emitted file starts with the
component struct listing the property members, the element members in
preorder, the signal members, the constructor holding the binding statements
in preorder, the tree-accessor declaration and the type-descriptor member, in
this order. -/
theorem generate_spec (component : Component) (diag : Diagnostics)
    (res : Option cpp_ast.File) (diag' : Diagnostics)
    (h : generate component diag = some (res, diag')) :
    diag' = (property_members_pass component.root_element.property_declarations diag).1 ∧
    ((res = none) ↔ diag'.has_error = true) ∧
    (∀ f, res = some f →
      ∃ tail, f.declarations = cpp_ast.Declaration.Struct (cpp_ast.Struct.mk component.id
        ((property_members_pass component.root_element.property_declarations diag).2.2
          ++ ((preorderL [component.root_element]).map element_member_var
          ++ (component.root_element.signals_declaration.map
              (fun s0 => cpp_ast.Declaration.Var ⟨"sixtyfps::Signal", s0, none⟩)
            ++ [cpp_ast.Declaration.Function ⟨component.id, "()", true, false,
                some ((preorderL [component.root_element]).flatMap
                  (fun e => e.bindings.map
                    (fun p => binding_statement component.id e p.1 p.2)))⟩,
              cpp_ast.Declaration.Function ⟨"tree_fn",
                "(sixtyfps::ComponentRef) -> const sixtyfps::ItemTreeNode* ",
                false, true, none⟩,
              cpp_ast.Declaration.Var ⟨"static const sixtyfps::ComponentVTable",
                "component_type", none⟩])))) :: tail) := by
  simp only [generate] at h
  split at h
  · exact absurd h (by simp)
  · rename_i ms init heq
    have hs := handle_items_spec _ _ _ _ _ heq
    have hsa : ms = cpp_ast.Struct.mk component.id
        ((property_members_pass component.root_element.property_declarations diag).2.2
          ++ (preorderL [component.root_element]).map element_member_var) := by
      have := hs.1
      simpa [cpp_ast.Struct.name, cpp_ast.Struct.members] using this
    have hsb : init = (preorderL [component.root_element]).flatMap
        (fun e => e.bindings.map (fun p => binding_statement component.id e p.1 p.2)) := by
      have := hs.2
      simpa [cpp_ast.Struct.name] using this
    split at h
    · exact absurd h (by simp)
    · rename_i tree_array htree
      split at h
      · rename_i herr
        simp only [Option.some.injEq, Prod.mk.injEq] at h
        obtain ⟨h1, h2⟩ := h
        subst h1; subst h2
        refine ⟨rfl, by simp [herr], ?_⟩
        intro f hf
        exact absurd hf (by simp)
      · rename_i herr
        simp only [Option.some.injEq, Prod.mk.injEq] at h
        obtain ⟨h1, h2⟩ := h
        subst h1; subst h2
        refine ⟨rfl, by simp [Bool.not_eq_true] at herr ⊢; simp [herr], ?_⟩
        intro f hf
        simp only [Option.some.injEq] at hf
        subst hf
        refine ⟨[cpp_ast.Declaration.Function ⟨component.id ++ "::tree_fn",
          "(sixtyfps::ComponentRef) -> const sixtyfps::ItemTreeNode* ", false, false,
          some ["static const sixtyfps::ItemTreeNode children[] \x7b",
            "    " ++ tree_array ++ " \x7d;",
            "return children;"]⟩,
          cpp_ast.Declaration.Var ⟨"const sixtyfps::ComponentVTable",
            component.id ++ "::component_type",
            some "\x7b nullptr, sixtyfps::dummy_destory, tree_fn \x7d"⟩], ?_⟩
        rw [hsa, hsb]
        simp [cpp_ast.Struct.name, cpp_ast.Struct.members, List.append_assoc]

/-- C5: `compile_expression` is total over the expression variant set — every
variant is rendered to a string, as the exhaustive case characterization below
shows — and a signal reference or any variant not explicitly handled (the
catch-all) is rendered as the inline error-marker string rather than raising a
diagnostic or an exception. -/
theorem claim_C5_compile_expression_total :
    (∀ c el nm, compile_expression (.SignalReference c el nm) =
      "\n#error: unsupported expression " ++
        (Expression.SignalReference c el nm).debug_str ++ "\n")
    ∧ (∀ d, compile_expression (.Other d) =
      "\n#error: unsupported expression " ++ (Expression.Other d).debug_str ++ "\n")
    ∧ (∀ e : Expression,
      (∃ s, e = .StringLiteral s ∧
        compile_expression e = "sixtyfps::SharedString(\"" ++ escape_default s ++ "\")") ∨
      (∃ n, e = .NumberLiteral n ∧ compile_expression e = toString n) ∨
      (∃ c el nm t, e = .PropertyReference c el nm t ∧
        compile_expression e = nm ++ ".get(nullptr)") ∨
      (∃ f t, e = .Cast f t ∧
        (compile_expression e =
            "sixtyfps::SharedString::from_number(" ++ compile_expression f ++ ")" ∨
          compile_expression e = compile_expression f)) ∨
      compile_expression e =
        "\n#error: unsupported expression " ++ e.debug_str ++ "\n") := by
  refine ⟨fun c el nm => rfl, fun d => rfl, ?_⟩
  intro e
  cases e with
  | StringLiteral s => exact Or.inl ⟨s, rfl, rfl⟩
  | NumberLiteral n => exact Or.inr (Or.inl ⟨n, rfl, rfl⟩)
  | PropertyReference c el nm t => exact Or.inr (Or.inr (Or.inl ⟨c, el, nm, t, rfl, rfl⟩))
  | Cast f t =>
    refine Or.inr (Or.inr (Or.inr (Or.inl ⟨f, t, rfl, ?_⟩)))
    cases hft : f.ty <;> cases t <;> simp [compile_expression, hft]
  | SignalReference c el nm => exact Or.inr (Or.inr (Or.inr (Or.inr rfl)))
  | Other d => exact Or.inr (Or.inr (Or.inr (Or.inr rfl)))

/-- C6: a cast first compiles the source sub-expression; for the pairs
Float32-to-String and Int32-to-String the result is wrapped in the from-number
string constructor, and every other cast pair passes the compiled
sub-expression through unchanged, with no conversion and no diagnostic. -/
theorem claim_C6_cast_compilation (from_ : Expression) (to_ : Ty) :
    compile_expression (.Cast from_ to_) =
      if (from_.ty = .Float32 ∨ from_.ty = .Int32) ∧ to_ = .String
      then "sixtyfps::SharedString::from_number(" ++ compile_expression from_ ++ ")"
      else compile_expression from_ := by
  cases hft : from_.ty <;> cases to_ <;> simp [compile_expression, hft]

/-- The property-declaration pass appends exactly one diagnostic per
unmappable declaration, in declaration order, and nothing else. -/
theorem property_members_pass_diag (pl : List (String × PropertyDeclaration))
    (diag : Diagnostics) :
    (property_members_pass pl diag).1.inner = diag.inner ++
      (pl.filter (fun p => !supported_type p.2.property_type)).map
        (fun p => ⟨"Cannot map property type to C++", p.2.type_location⟩) := by
  induction pl generalizing diag with
  | nil => simp [property_members_pass]
  | cons hd tl ih =>
    obtain ⟨n, pt, loc⟩ := hd
    cases pt <;>
      simp [property_members_pass, PropertyDeclaration.cpp_type, supported_type,
        Diagnostics.push_compiler_error, ih, List.append_assoc]

/-- C4: the target-type mapper is the fixed documented map on the supported
subset; every property declaration whose type is outside that subset yields
exactly one diagnostic carrying the declaration's span, raises no control-flow
error, and `generate` completes the pass with exactly those diagnostics
appended to the sink. -/
theorem claim_C4_type_mapper :
    (∀ loc : Span,
      PropertyDeclaration.cpp_type ⟨.Float32, loc⟩ = .ok "float" ∧
      PropertyDeclaration.cpp_type ⟨.Int32, loc⟩ = .ok "int" ∧
      PropertyDeclaration.cpp_type ⟨.String, loc⟩ = .ok "sixtyfps::SharedString" ∧
      PropertyDeclaration.cpp_type ⟨.Color, loc⟩ = .ok "uint32_t" ∧
      PropertyDeclaration.cpp_type ⟨.Bool, loc⟩ = .ok "bool")
    ∧ (∀ pd : PropertyDeclaration, supported_type pd.property_type = false →
      pd.cpp_type = .error ⟨"Cannot map property type to C++", pd.type_location⟩)
    ∧ (∀ (pl : List (String × PropertyDeclaration)) (diag : Diagnostics),
      (property_members_pass pl diag).1.inner = diag.inner ++
        (pl.filter (fun p => !supported_type p.2.property_type)).map
          (fun p => ⟨"Cannot map property type to C++", p.2.type_location⟩))
    ∧ (∀ (component : Component) (diag : Diagnostics) (res : Option cpp_ast.File)
        (diag' : Diagnostics), generate component diag = some (res, diag') →
      diag'.inner = diag.inner ++
        ((component.root_element.property_declarations.filter
          (fun p => !supported_type p.2.property_type)).map
          (fun p => ⟨"Cannot map property type to C++", p.2.type_location⟩))) := by
  refine ⟨fun loc => ⟨rfl, rfl, rfl, rfl, rfl⟩, ?_, property_members_pass_diag, ?_⟩
  · intro pd h
    obtain ⟨pt, loc⟩ := pd
    cases pt <;> simp [supported_type] at h <;>
      simp [PropertyDeclaration.cpp_type]
  · intro component diag res diag' h
    have := (generate_spec component diag res diag' h).1
    rw [this, property_members_pass_diag]

/-- Witness for C4: the unsupported signal type is rejected with the
declaration's own span, and a component declaring such a property finishes
`generate` with exactly that one diagnostic recorded. -/
theorem claim_C4_type_mapper_witness :
    PropertyDeclaration.cpp_type ex_pd_bad =
      .error ⟨"Cannot map property type to C++", ⟨5⟩⟩ :=
  claim_C4_type_mapper.2.1 ex_pd_bad (by decide)

/-- Elements named by a child block are members of the block's list. -/
theorem child_block_mem : ∀ (l : List Element) (b : Nat) (p : Element × Nat),
    p ∈ child_block l b → p.1 ∈ l := by
  intro l
  induction l using forest_ind with
  | h0 => intro b p h; simp [child_block] at h
  | h1 id base props sigs binds cs rest ih1 ih2 =>
    intro b p h
    simp only [child_block, List.mem_cons] at h
    rcases h with h | h
    · subst h; exact List.mem_cons_self _ _
    · exact List.mem_cons_of_mem _ (ih2 _ p h)

/-- An element of a list occurs in the list's preorder traversal. -/
theorem mem_preorderL_self : ∀ (l : List Element) (e : Element),
    e ∈ l → e ∈ preorderL l := by
  intro l
  induction l using forest_ind with
  | h0 => intro e h; cases h
  | h1 id base props sigs binds cs rest ih1 ih2 =>
    intro e h
    simp only [preorderL, List.mem_cons, List.mem_append]
    rcases List.mem_cons.mp h with h | h
    · exact Or.inl h
    · exact Or.inr (Or.inr (ih2 e h))

/-- Every element named by the deferred descent is in the forest's preorder
traversal. -/
theorem descend_mem : ∀ (l : List Element) (b : Nat) (p : Element × Nat),
    p ∈ descend_blocks l b → p.1 ∈ preorderL l := by
  intro l
  induction l using forest_ind with
  | h0 => intro b p h; simp [descend_blocks] at h
  | h1 id base props sigs binds cs rest ih1 ih2 =>
    intro b p h
    simp only [descend_blocks, List.mem_append] at h
    simp only [preorderL, List.mem_cons, List.mem_append]
    rcases h with (h | h) | h
    · exact Or.inr (Or.inl (mem_preorderL_self cs p.1 (child_block_mem _ _ _ h)))
    · exact Or.inr (Or.inl (ih1 _ p h))
    · exact Or.inr (Or.inr (ih2 _ p h))

/-- In an all-built-in forest, every element of the preorder traversal has a
built-in base type. -/
theorem all_builtinL_preorder : ∀ (l : List Element), all_builtinL l = true →
    ∀ e ∈ preorderL l, (e.base_type.as_builtin).isSome = true := by
  intro l
  induction l using forest_ind with
  | h0 => intro _ e h; simp [preorderL] at h
  | h1 id base props sigs binds cs rest ih1 ih2 =>
    intro hall e he
    simp only [all_builtinL, Bool.and_eq_true] at hall
    simp only [preorderL, List.mem_cons, List.mem_append] at he
    rcases he with rfl | he | he
    · exact hall.1.1
    · exact ih1 hall.1.2 e he
    · exact ih2 hall.2 e he

/-- An option-valued fold over descriptors succeeds when each descriptor
renders. -/
theorem foldlM_item_nodes_isSome (cid : String) :
    ∀ (lst : List (Element × Nat)) (acc : String),
    (∀ p ∈ lst, (item_node_str cid p.1 p.2).isSome = true) →
    (lst.foldlM (fun acc p => (item_node_str cid p.1 p.2).map
      (fun s => acc ++ (if acc.isEmpty then "" else ", ") ++ s)) acc).isSome = true := by
  intro lst
  induction lst with
  | nil => intro acc h; simp
  | cons hd tl ih =>
    intro acc h
    obtain ⟨v, hv⟩ := Option.isSome_iff_exists.mp (h hd (List.mem_cons_self _ _))
    rw [List.foldlM_cons, hv]
    simpa using ih _ (fun p hp => h p (List.mem_cons_of_mem _ hp))

/-- The tree-array accumulation succeeds for an all-built-in component. -/
theorem tree_array_str_isSome (component : Component)
    (h : all_builtinL [component.root_element] = true) :
    (tree_array_str component).isSome = true := by
  apply foldlM_item_nodes_isSome
  intro p hp
  have hmem : p.1 ∈ preorderL [component.root_element] := by
    simp only [build_array_helper, List.mem_cons] at hp
    rcases hp with rfl | hp
    · exact mem_preorderL_self _ _ (List.mem_cons_self _ _)
    · exact descend_mem _ _ _ hp
  have hb := all_builtinL_preorder _ h _ hmem
  simpa [item_node_str] using hb

/-- `generate` succeeds — with or without a suppressed file — exactly when
every element of the component tree has a built-in base type. -/
theorem generate_isSome (component : Component) (diag : Diagnostics) :
    (generate component diag).isSome = all_builtinL [component.root_element] := by
  simp only [generate]
  split
  · rename_i heq
    have hA : all_builtinL [component.root_element] =
        (handle_items [component.root_element]
          (property_members_pass component.root_element.property_declarations diag).2.1
          (cpp_ast.Struct.mk component.id
            (property_members_pass component.root_element.property_declarations diag).2.2)
          []).isSome := (handle_items_isSome _ _ _ _).symm
    rw [heq] at hA
    simp only [Option.isSome_none] at hA
    simp [← hA]
  · rename_i ms init heq
    have hA : all_builtinL [component.root_element] =
        (handle_items [component.root_element]
          (property_members_pass component.root_element.property_declarations diag).2.1
          (cpp_ast.Struct.mk component.id
            (property_members_pass component.root_element.property_declarations diag).2.2)
          []).isSome := (handle_items_isSome _ _ _ _).symm
    rw [heq] at hA
    simp only [Option.isSome_some] at hA
    split
    · rename_i htree
      have := tree_array_str_isSome component hA
      rw [htree] at this
      cases this
    · split <;> simp [hA]

/-- C9: `generate` is only defined for components whose every element has a
built-in base type: the built-in view exists exactly for built-in base types —
in particular not for a component used as a base type, which the data model
permits — and `generate` reaches a result exactly when the whole tree is
built-in; otherwise the precondition violation aborts it with neither a
diagnostic nor an output. -/
theorem claim_C9_builtin_base_precondition :
    (∀ b : BuiltinElement, Ty.as_builtin (.Builtin b) = some b)
    ∧ (∀ nm : String, Ty.as_builtin (.Component nm) = none)
    ∧ (∀ (component : Component) (diag : Diagnostics),
      (generate component diag).isSome = all_builtinL [component.root_element]) :=
  ⟨fun _ => rfl, fun _ => rfl, generate_isSome⟩

/-- C3: `generate` returns `none` if and only if the diagnostics sink reports
an error once the whole emission pass has completed; when no error was
recorded the assembled file is returned. -/
theorem claim_C3_error_gate (component : Component) (diag : Diagnostics)
    (res : Option cpp_ast.File) (diag' : Diagnostics)
    (h : generate component diag = some (res, diag')) :
    ((res = none) ↔ diag'.has_error = true) ∧
    (diag'.has_error = false → ∃ f, res = some f) := by
  obtain ⟨-, h2, -⟩ := generate_spec component diag res diag' h
  refine ⟨h2, ?_⟩
  intro he
  cases res with
  | none => rw [h2.mp rfl] at he; cases he
  | some f => exact ⟨f, rfl⟩

/-- Witness for C3 on a concrete error-free component. -/
theorem claim_C3_error_gate_witness :
    ∃ res diag', generate ex_component_plain ⟨[]⟩ = some (res, diag') ∧
      ((res = none) ↔ diag'.has_error = true) ∧
      (diag'.has_error = false → ∃ f, res = some f) := by
  have hs : (generate ex_component_plain ⟨[]⟩).isSome = true := by
    rw [generate_isSome]
    simp [ex_component_plain, all_builtinL, Ty.as_builtin]
  obtain ⟨pr, hpr⟩ := Option.isSome_iff_exists.mp hs
  obtain ⟨res, diag'⟩ := pr
  exact ⟨res, diag', hpr, claim_C3_error_gate _ _ _ _ hpr⟩

/-- The property-declaration pass records every declared name and builds one
reactive-property member per declaration, mapping failures included, with the
empty string as placeholder native type. -/
theorem property_members_pass_members (pl : List (String × PropertyDeclaration))
    (diag : Diagnostics) :
    (property_members_pass pl diag).2.1 = pl.map Prod.fst ∧
    (property_members_pass pl diag).2.2 = pl.map (fun p =>
      cpp_ast.Declaration.Var
        ⟨"sixtyfps::Property<" ++ (p.2.cpp_type.toOption.getD "") ++ ">", p.1, none⟩) := by
  induction pl generalizing diag with
  | nil => simp [property_members_pass]
  | cons hd tl ih =>
    obtain ⟨n, pd⟩ := hd
    cases hc : pd.cpp_type <;>
      simp [property_members_pass, hc, Except.toOption, ih]

/-- C10: when a declared property's type has no native mapping, the
substituted placeholder is the empty string, so the member is still added —
with type `sixtyfps::Property<>` — and the name is still recorded in the
declared-member list; the struct is assembled with every declaration's member
regardless. -/
theorem claim_C10_unmappable_placeholder :
    (∀ (pl : List (String × PropertyDeclaration)) (diag : Diagnostics),
      (property_members_pass pl diag).2.1 = pl.map Prod.fst ∧
      (property_members_pass pl diag).2.2 = pl.map (fun p =>
        cpp_ast.Declaration.Var
          ⟨"sixtyfps::Property<" ++ (p.2.cpp_type.toOption.getD "") ++ ">", p.1, none⟩))
    ∧ (∀ pd : PropertyDeclaration, supported_type pd.property_type = false →
      "sixtyfps::Property<" ++ (pd.cpp_type.toOption.getD "") ++ ">" =
        "sixtyfps::Property<>")
    ∧ (∀ (component : Component) (diag : Diagnostics) (res : Option cpp_ast.File)
        (diag' : Diagnostics) (f : cpp_ast.File),
      generate component diag = some (res, diag') → res = some f →
      ∃ s tail others, f.declarations = cpp_ast.Declaration.Struct s :: tail ∧
        s.members =
          (property_members_pass component.root_element.property_declarations diag).2.2
            ++ others) := by
  refine ⟨property_members_pass_members, ?_, ?_⟩
  · intro pd h
    obtain ⟨pt, loc⟩ := pd
    cases pt <;> simp [supported_type] at h <;>
      simp [PropertyDeclaration.cpp_type, Except.toOption]
  · intro component diag res diag' f h hf
    obtain ⟨-, -, h3⟩ := generate_spec component diag res diag' h
    obtain ⟨tail, htail⟩ := h3 f hf
    exact ⟨_, tail, _, htail, rfl⟩

/-- Witness for C10: the unmappable declaration still yields the placeholder
member type, and the pass over it still records both name and member. -/
theorem claim_C10_unmappable_placeholder_witness :
    ("sixtyfps::Property<" ++ (ex_pd_bad.cpp_type.toOption.getD "") ++ ">" =
      "sixtyfps::Property<>") ∧
    (property_members_pass [("q", ex_pd_bad)] ⟨[]⟩).2.1 = ["q"] ∧
    (property_members_pass [("q", ex_pd_bad)] ⟨[]⟩).2.2 =
      [cpp_ast.Declaration.Var ⟨"sixtyfps::Property<>", "q", none⟩] := by
  refine ⟨claim_C10_unmappable_placeholder.2.1 ex_pd_bad (by decide), ?_, ?_⟩
  · exact (claim_C10_unmappable_placeholder.1 [("q", ex_pd_bad)] ⟨[]⟩).1
  · have h := (claim_C10_unmappable_placeholder.1 [("q", ex_pd_bad)] ⟨[]⟩).2
    rw [h]
    simp [ex_pd_bad, PropertyDeclaration.cpp_type, Except.toOption]

/-- C8: in the emitted struct, the element member variables appear as one run
in tree-visitation preorder — parents before children, children in declaration
order — and the constructor body is the concatenation, in the same preorder,
of each element's binding statements, so each element's member variable is
introduced with its binding statements at the element's preorder position. -/
theorem claim_C8_emission_order (component : Component) (diag : Diagnostics)
    (res : Option cpp_ast.File) (diag' : Diagnostics) (f : cpp_ast.File)
    (h : generate component diag = some (res, diag')) (hf : res = some f) :
    ∃ s tail propvars sigvars fntail,
      f.declarations = cpp_ast.Declaration.Struct s :: tail ∧
      s.members = propvars
        ++ ((preorderL [component.root_element]).map element_member_var
        ++ (sigvars
        ++ cpp_ast.Declaration.Function ⟨component.id, "()", true, false,
            some ((preorderL [component.root_element]).flatMap
              (fun e => e.bindings.map
                (fun p => binding_statement component.id e p.1 p.2)))⟩ :: fntail)) := by
  obtain ⟨-, -, h3⟩ := generate_spec component diag res diag' h
  obtain ⟨tail, htail⟩ := h3 f hf
  exact ⟨_, tail, _, _, _, htail, rfl⟩

/-- Witness for C8 on a concrete two-element component with one binding. -/
theorem claim_C8_emission_order_witness :
    ∃ res diag' f, generate ex_component_two ⟨[]⟩ = some (res, diag') ∧ res = some f ∧
      ∃ s tail propvars sigvars fntail,
        f.declarations = cpp_ast.Declaration.Struct s :: tail ∧
        s.members = propvars
          ++ ((preorderL [ex_component_two.root_element]).map element_member_var
          ++ (sigvars
          ++ cpp_ast.Declaration.Function ⟨ex_component_two.id, "()", true, false,
              some ((preorderL [ex_component_two.root_element]).flatMap
                (fun e => e.bindings.map
                  (fun p => binding_statement ex_component_two.id e p.1 p.2)))⟩ :: fntail)) := by
  have hs : (generate ex_component_two ⟨[]⟩).isSome = true := by
    rw [generate_isSome]
    simp [ex_component_two, ex_child_bound, all_builtinL, Ty.as_builtin]
  obtain ⟨pr, hpr⟩ := Option.isSome_iff_exists.mp hs
  obtain ⟨res, diag'⟩ := pr
  have hd := (generate_spec _ _ _ _ hpr).1
  have herr : diag'.has_error = false := by
    rw [hd]
    simp [ex_component_two, Element.property_declarations, property_members_pass,
      PropertyDeclaration.cpp_type, Diagnostics.has_error]
  have hiff := (generate_spec _ _ _ _ hpr).2.1
  cases res with
  | none => rw [hiff.mp rfl] at herr; cases herr
  | some f =>
    exact ⟨some f, diag', f, hpr, rfl,
      claim_C8_emission_order ex_component_two ⟨[]⟩ (some f) diag' f hpr rfl⟩

/-- Appending a dot leaves a string nonempty. -/
theorem append_dot_ne_empty (str : String) : str ++ "." ≠ "" := by
  intro h
  have h2 := congrArg String.length h
  rw [String.length_append] at h2
  have hd : ("." : String).length = 1 := rfl
  have he : ("" : String).length = 0 := rfl
  omega

/-- The `global_properties` argument of `handle_items` is never consulted. -/
theorem handle_items_global_irrelevant : ∀ (l : List Element) (g g' : List String)
    (ms : cpp_ast.Struct) (init : List String),
    handle_items l g ms init = handle_items l g' ms init := by
  intro l
  induction l using forest_ind with
  | h0 => intro g g' ms init; simp [handle_items]
  | h1 id base props sigs binds cs rest ih1 ih2 =>
    intro g g' ms init
    simp only [handle_items]
    cases hb : base.as_builtin with
    | none => rfl
    | some b =>
      cases hcs : handle_items cs g'
          (cpp_ast.Struct.mk ms.name (ms.members ++
            [cpp_ast.Declaration.Var ⟨"sixtyfps::" ++ b.class_name, id, none⟩]))
          (init ++ binds.map (fun p => binding_statement ms.name
            (Element.mk id base props sigs binds cs) p.1 p.2)) with
      | none => simp only [ih1 g g', hcs]
      | some pr =>
        obtain ⟨pr1, pr2⟩ := pr
        simp only [ih1 g g', hcs]
        exact ih2 g g' pr1 pr2

/-- C1 counterexample: the code resolves a binding's accessor prefix against
the element's own declarations, not the component root's.  In
`ex_component_local_scope`, the child's binding of its locally declared
property `foo` is emitted unprefixed although `foo` is not declared on the
component root, falsifying the claimed root-first scope rule. -/
theorem claim_C1_counterexample :
    ¬ unprefixed_iff_root_scope ex_component_local_scope := by
  intro h
  have hmem : ex_child_with_local_property ∈
      preorderL [ex_component_local_scope.root_element] := by
    simp [ex_component_local_scope, preorderL, ex_child_with_local_property]
  have hb := h ex_child_with_local_property hmem ("foo", Expression.NumberLiteral 42)
    (by simp [ex_child_with_local_property, Element.bindings])
  simp [binding_prefix_of, accessor_prefix_of, ex_child_with_local_property,
    ex_component_local_scope, Element.property_declarations, Element.signals_declaration,
    Element.id] at hb

/-- C1 as amended: the emitted accessor is unprefixed exactly when the bound
name is declared on the binding's own element — its `property_declarations`
for property bindings, its `signals_declaration` for signal bindings — and
the root-scope `global_properties` list handed to `handle_item` is never
consulted. -/
theorem claim_C1_local_scope_resolution (struct_name : String) (item : Element)
    (s : String) (i : Expression) :
    ((∀ c el nm, i ≠ .SignalReference c el nm) →
      binding_statement struct_name item s i =
        accessor_prefix_of item s ++ s ++ ".set(" ++ compile_expression i ++ ");" ∧
      (accessor_prefix_of item s = "" ↔
        (item.property_declarations.map Prod.fst).contains s = true))
    ∧ (∀ c el nm, i = .SignalReference c el nm →
      binding_statement struct_name item s i =
        signal_accessor_prefix_of item s ++ s ++
          ".set_handler([](const void *root) \x7b reinterpret_cast<const " ++ struct_name ++
          "*>(root)->" ++ nm ++ ".emit(root); \x7d);" ∧
      (signal_accessor_prefix_of item s = "" ↔
        item.signals_declaration.contains s = true))
    ∧ (∀ (g g' : List String) (ms : cpp_ast.Struct) (init : List String),
      handle_item item g ms init = handle_item item g' ms init) := by
  refine ⟨?_, ?_, ?_⟩
  · intro hns
    refine ⟨?_, ?_⟩
    · cases i with
      | SignalReference c el nm => exact absurd rfl (hns c el nm)
      | StringLiteral s0 => rfl
      | NumberLiteral n => rfl
      | PropertyReference c el nm t => rfl
      | Cast f t => rfl
      | Other d => rfl
    · by_cases hc : (item.property_declarations.map Prod.fst).contains s = true
      · unfold accessor_prefix_of
        rw [if_pos hc]
        exact iff_of_true rfl hc
      · unfold accessor_prefix_of
        rw [if_neg hc]
        exact iff_of_false (append_dot_ne_empty item.id) hc
  · intro c el nm hi
    subst hi
    refine ⟨rfl, ?_⟩
    by_cases hc : item.signals_declaration.contains s = true
    · unfold signal_accessor_prefix_of
      rw [if_pos hc]
      exact iff_of_true rfl hc
    · unfold signal_accessor_prefix_of
      rw [if_neg hc]
      exact iff_of_false (append_dot_ne_empty item.id) hc
  · intro g g' ms init
    exact handle_items_global_irrelevant [item] g g' ms init

/-- Witness for C1 as amended, at the concrete locally declared binding. -/
theorem claim_C1_local_scope_resolution_witness :
    binding_statement "App" ex_child_with_local_property "foo" (.NumberLiteral 42) =
      accessor_prefix_of ex_child_with_local_property "foo" ++ "foo" ++ ".set(" ++
        compile_expression (.NumberLiteral 42) ++ ");" ∧
    (accessor_prefix_of ex_child_with_local_property "foo" = "" ↔
      (ex_child_with_local_property.property_declarations.map Prod.fst).contains "foo"
        = true) :=
  (claim_C1_local_scope_resolution "App" ex_child_with_local_property "foo"
    (.NumberLiteral 42)).1 (fun _ _ _ h => Expression.noConfusion h)

/-- A child block holds one descriptor per direct child. -/
theorem child_block_length : ∀ (l : List Element) (off : Nat),
    (child_block l off).length = l.length := by
  intro l
  induction l using forest_ind with
  | h0 => intro off; simp [child_block]
  | h1 id base props sigs binds cs rest ih1 ih2 =>
    intro off
    simp [child_block, ih2]

/-- Splitting the size of a forest into roots and descendants. -/
theorem forests_below_add_length : ∀ l : List Element,
    forests_below l + l.length = forest_size l := by
  intro l
  induction l using forest_ind with
  | h0 => simp [forests_below, forest_size]
  | h1 id base props sigs binds cs rest ih1 ih2 =>
    simp only [forests_below, forest_size, List.length_cons]
    omega

/-- The deferred descent emits one descriptor per strict descendant. -/
theorem descend_blocks_length : ∀ (l : List Element) (off : Nat),
    (descend_blocks l off).length = forests_below l := by
  intro l
  induction l using forest_ind with
  | h0 => intro off; simp [descend_blocks, forests_below]
  | h1 id base props sigs binds cs rest ih1 ih2 =>
    intro off
    simp [descend_blocks, forests_below, child_block_length, ih1, ih2]
    have := forests_below_add_length cs
    omega

/-- Preorder traversal lists every element of the forest. -/
theorem preorderL_length : ∀ l : List Element,
    (preorderL l).length = forest_size l := by
  intro l
  induction l using forest_ind with
  | h0 => simp [preorderL, forest_size]
  | h1 id base props sigs binds cs rest ih1 ih2 =>
    simp [preorderL, forest_size, ih1, ih2]
    omega

/-- A forest has at least as many elements as roots. -/
theorem length_le_forest_size (l : List Element) : l.length ≤ forest_size l := by
  have := forests_below_add_length l
  omega

/-- The descriptor at position `j` of a child block names the `j`-th child and
records the offset past the block plus the earlier siblings' subtrees. -/
theorem child_block_get : ∀ (l : List Element) (off j : Nat) (hj : j < l.length),
    (child_block l off).get? j =
      some (l.get ⟨j, hj⟩, off + forests_below (l.take j)) := by
  intro l
  induction l using forest_ind with
  | h0 => intro off j hj; exact absurd hj (by simp)
  | h1 id base props sigs binds cs rest ih1 ih2 =>
    intro off j hj
    cases j with
    | zero => simp [child_block, forests_below]
    | succ j' =>
      have hj' : j' < rest.length := by simpa using hj
      have := ih2 (off + forest_size cs) j' hj'
      simp only [child_block, List.get?_cons_succ, List.get_cons_succ, List.take_succ_cons,
        forests_below]
      rw [this]
      congr 2
      omega

/-- The earlier siblings' subtrees plus one subtree fit below the whole
forest's descendant count. -/
theorem forests_below_take_le : ∀ (l : List Element) (j : Nat) (hj : j < l.length),
    forests_below (l.take j) + forest_size ((l.get ⟨j, hj⟩).children) ≤
      forests_below l := by
  intro l
  induction l using forest_ind with
  | h0 => intro j hj; exact absurd hj (by simp)
  | h1 id base props sigs binds cs rest ih1 ih2 =>
    intro j hj
    cases j with
    | zero => simp [forests_below, Element.children]
    | succ j' =>
      have hj' : j' < rest.length := by simpa using hj
      have := ih2 j' hj'
      simp only [List.take_succ_cons, forests_below, List.get_cons_succ]
      omega

/-- Looking up past a prefix of an appended list. -/
theorem get?_append_skip {α : Type} (l1 l2 : List α) (n m : Nat)
    (h : n = l1.length + m) : (l1 ++ l2).get? n = l2.get? m := by
  subst h
  rw [List.get?_append_right (Nat.le_add_right _ _)]
  congr 1
  omega

/-- Inside the deferred descent of a forest, the children block of the `j`-th
root sits at the positions its recorded children-offset announces. -/
theorem head_blocks : ∀ (l : List Element) (base j : Nat) (hj : j < l.length)
    (i : Nat) (hi : i < ((l.get ⟨j, hj⟩).children).length),
    ∃ off2, (descend_blocks l base).get? (forests_below (l.take j) + i) =
      some (((l.get ⟨j, hj⟩).children).get ⟨i, hi⟩, off2) := by
  intro l
  induction l using forest_ind with
  | h0 => intro base j hj; exact absurd hj (by simp)
  | h1 id base0 props sigs binds cs rest ih1 ih2 =>
    intro base j hj i hi
    cases j with
    | zero =>
      have hi' : i < cs.length := by simpa [Element.children] using hi
      simp only [descend_blocks, List.take_zero, forests_below, Nat.zero_add]
      have hlt : i < (child_block cs (base + cs.length)).length := by
        rw [child_block_length]; exact hi'
      have hlt2 : i < ((child_block cs (base + cs.length)) ++
          descend_blocks cs (base + cs.length)).length := by
        rw [List.length_append]; omega
      rw [List.get?_append hlt2, List.get?_append hlt,
        child_block_get cs (base + cs.length) i hi']
      exact ⟨base + cs.length + forests_below (cs.take i), by simp [Element.children]⟩
    | succ j' =>
      have hj' : j' < rest.length := by simpa using hj
      obtain ⟨off2, h2⟩ := ih2 (base + forest_size cs) j' hj' i
        (by simpa [List.get_cons_succ] using hi)
      refine ⟨off2, ?_⟩
      have hAB : (child_block cs (base + cs.length) ++
          descend_blocks cs (base + cs.length)).length = forest_size cs := by
        rw [List.length_append, child_block_length, descend_blocks_length]
        have := forests_below_add_length cs
        omega
      simp only [descend_blocks, List.take_succ_cons, forests_below, List.get_cons_succ]
      rw [get?_append_skip _ _ _ (forests_below (rest.take j') + i) (by rw [hAB]; omega)]
      exact h2

/-- Layout correctness of the deferred descent: every emitted descriptor sits
above its segment's base, keeps its subtree inside the segment, and finds its
direct children's descriptors — in declaration order — in the contiguous run
starting at its recorded children-offset, translated by the segment base. -/
theorem descend_good : ∀ (l : List Element) (base j : Nat) (e : Element) (off : Nat),
    (descend_blocks l base).get? j = some (e, off) →
    base ≤ off ∧ off + forest_size e.children ≤ base + forests_below l ∧
    ∀ i (hi : i < e.children.length), ∃ off2,
      (descend_blocks l base).get? (off + i - base) =
        some (e.children.get ⟨i, hi⟩, off2) := by
  intro l
  induction l using forest_ind with
  | h0 => intro base j e off h; simp [descend_blocks] at h
  | h1 id base0 props sigs binds cs rest ih1 ih2 =>
    intro base j e off h
    have hA : (child_block cs (base + cs.length)).length = cs.length :=
      child_block_length _ _
    have hB : (descend_blocks cs (base + cs.length)).length = forests_below cs :=
      descend_blocks_length _ _
    have hfb : forests_below cs + cs.length = forest_size cs :=
      forests_below_add_length cs
    have hAB : (child_block cs (base + cs.length) ++
        descend_blocks cs (base + cs.length)).length = forest_size cs := by
      rw [List.length_append, hA, hB]; omega
    simp only [descend_blocks] at h ⊢
    simp only [forests_below]
    by_cases hj1 : j < forest_size cs
    · rw [List.get?_append (by rw [hAB]; exact hj1)] at h
      by_cases hj2 : j < cs.length
      · rw [List.get?_append (by rw [hA]; exact hj2)] at h
        rw [child_block_get cs (base + cs.length) j hj2] at h
        simp only [Option.some.injEq, Prod.mk.injEq] at h
        obtain ⟨he, hoff⟩ := h
        subst he
        subst hoff
        have htk := forests_below_take_le cs j hj2
        refine ⟨by omega, by omega, ?_⟩
        intro i hi
        have hifs : i < forest_size ((cs.get ⟨j, hj2⟩).children) :=
          Nat.lt_of_lt_of_le hi (length_le_forest_size _)
        obtain ⟨off2, hh⟩ := head_blocks cs (base + cs.length) j hj2 i hi
        refine ⟨off2, ?_⟩
        have hidx : base + cs.length + forests_below (cs.take j) + i - base =
            cs.length + (forests_below (cs.take j) + i) := by omega
        rw [hidx]
        rw [List.get?_append (by rw [hAB]; omega)]
        rw [get?_append_skip _ _ _ (forests_below (cs.take j) + i) (by rw [hA])]
        exact hh
      · rw [List.get?_append_right (by rw [hA]; omega)] at h
        rw [hA] at h
        obtain ⟨ihb1, ihb2, ihlook⟩ := ih1 (base + cs.length) (j - cs.length) e off h
        refine ⟨by omega, by omega, ?_⟩
        intro i hi
        have hifs : i < forest_size e.children :=
          Nat.lt_of_lt_of_le hi (length_le_forest_size _)
        obtain ⟨off2, hlk⟩ := ihlook i hi
        refine ⟨off2, ?_⟩
        have hidx : off + i - base = cs.length + (off + i - (base + cs.length)) := by
          omega
        rw [hidx]
        rw [List.get?_append (by rw [hAB]; omega)]
        rw [get?_append_skip _ _ _ (off + i - (base + cs.length)) (by rw [hA])]
        exact hlk
    · rw [List.get?_append_right (by rw [hAB]; omega)] at h
      rw [hAB] at h
      obtain ⟨ihb1, ihb2, ihlook⟩ := ih2 (base + forest_size cs) (j - forest_size cs) e off h
      refine ⟨by omega, by omega, ?_⟩
      intro i hi
      obtain ⟨off2, hlk⟩ := ihlook i hi
      refine ⟨off2, ?_⟩
      have hidx : off + i - base = forest_size cs + (off + i - (base + forest_size cs)) := by
        omega
      rw [hidx]
      rw [get?_append_skip _ _ _ (off + i - (base + forest_size cs)) (by rw [hAB])]
      exact hlk

/-- C2: on any element tree the flattener emits exactly as many descriptors as
the tree has elements; for every descriptor, the descriptors of its element's
direct children occupy the contiguous index run starting at its recorded
children-offset, in declaration order; and each rendered descriptor carries
its element's direct child count. -/
theorem claim_C2_item_tree_flattening (component : Component) :
    (build_array_helper component).length = (preorderL [component.root_element]).length
    ∧ (∀ j e off, (build_array_helper component).get? j = some (e, off) →
      ∀ i (hi : i < e.children.length), ∃ off2,
        (build_array_helper component).get? (off + i) =
          some (e.children.get ⟨i, hi⟩, off2))
    ∧ (∀ j e off b, (build_array_helper component).get? j = some (e, off) →
      e.base_type.as_builtin = some b →
      item_node_str component.id e off = some
        ("sixtyfps::make_item_node(offsetof(" ++ component.id ++ ", " ++ e.id ++
          "), &sixtyfps::" ++ b.vtable_symbol ++ ", " ++ toString e.children.length ++
          ", " ++ toString off ++ ")")) := by
  refine ⟨?_, ?_, ?_⟩
  · simp only [build_array_helper, List.length_cons, descend_blocks_length,
      preorderL_length]
    have := forests_below_add_length [component.root_element]
    simp only [List.length_singleton] at this
    omega
  · intro j e off h i hi
    cases j with
    | zero =>
      simp only [build_array_helper, List.get?_cons_zero, Option.some.injEq,
        Prod.mk.injEq] at h
      obtain ⟨he, hoff⟩ := h
      subst he
      subst hoff
      have hi0 : i < (([component.root_element].get
          ⟨0, by simp⟩).children).length := hi
      obtain ⟨off2, hh⟩ := head_blocks [component.root_element] 1 0 (by simp) i hi0
      refine ⟨off2, ?_⟩
      have hidx : (1 : Nat) + i = i + 1 := by omega
      simp only [build_array_helper, hidx, List.get?_cons_succ]
      simpa [forests_below] using hh
    | succ j' =>
      simp only [build_array_helper, List.get?_cons_succ] at h
      obtain ⟨hb1, hb2, hlook⟩ := descend_good [component.root_element] 1 j' e off h
      obtain ⟨off2, hlk⟩ := hlook i hi
      refine ⟨off2, ?_⟩
      have hidx : off + i = (off + i - 1) + 1 := by omega
      simp only [build_array_helper]
      rw [hidx, List.get?_cons_succ]
      exact hlk
  · intro j e off b _ hb
    simp [item_node_str, hb]

/-- Witness for C2 on a concrete two-element component: the root descriptor's
recorded children-offset 1 indeed locates its only child's descriptor, and the
root's rendered node carries its child count. -/
theorem claim_C2_item_tree_flattening_witness :
    ((build_array_helper ex_component_two).length =
      (preorderL [ex_component_two.root_element]).length) ∧
    (∃ off2, (build_array_helper ex_component_two).get? (1 + 0) =
      some ((ex_component_two.root_element.children).get ⟨0, by decide⟩, off2)) ∧
    item_node_str ex_component_two.id ex_component_two.root_element 1 = some
      ("sixtyfps::make_item_node(offsetof(" ++ ex_component_two.id ++ ", " ++
        ex_component_two.root_element.id ++ "), &sixtyfps::" ++
        exWindow.vtable_symbol ++ ", " ++
        toString ex_component_two.root_element.children.length ++ ", " ++
        toString 1 ++ ")") :=
  ⟨(claim_C2_item_tree_flattening ex_component_two).1,
    (claim_C2_item_tree_flattening ex_component_two).2.1 0 _ 1 rfl 0 (by decide),
    (claim_C2_item_tree_flattening ex_component_two).2.2 0 _ 1 exWindow rfl rfl⟩

/-- Decoding step: the tab escape. -/
theorem cpp_unescape_fuel_step_t (f : Nat) (r : List Char) :
    cpp_unescape_fuel (f + 1) ('\\' :: 't' :: r) =
      (cpp_unescape_fuel f r).map (fun l => '\t' :: l) := rfl

/-- Decoding step: the carriage-return escape. -/
theorem cpp_unescape_fuel_step_r (f : Nat) (r : List Char) :
    cpp_unescape_fuel (f + 1) ('\\' :: 'r' :: r) =
      (cpp_unescape_fuel f r).map (fun l => '\r' :: l) := rfl

/-- Decoding step: the newline escape. -/
theorem cpp_unescape_fuel_step_n (f : Nat) (r : List Char) :
    cpp_unescape_fuel (f + 1) ('\\' :: 'n' :: r) =
      (cpp_unescape_fuel f r).map (fun l => '\n' :: l) := rfl

/-- Decoding step: the backslash escape. -/
theorem cpp_unescape_fuel_step_bs (f : Nat) (r : List Char) :
    cpp_unescape_fuel (f + 1) ('\\' :: '\\' :: r) =
      (cpp_unescape_fuel f r).map (fun l => '\\' :: l) := rfl

/-- Decoding step: the single-quote escape. -/
theorem cpp_unescape_fuel_step_apos (f : Nat) (r : List Char) :
    cpp_unescape_fuel (f + 1) ('\\' :: Char.ofNat 0x27 :: r) =
      (cpp_unescape_fuel f r).map (fun l => Char.ofNat 0x27 :: l) := rfl

/-- Decoding step: the double-quote escape. -/
theorem cpp_unescape_fuel_step_quote (f : Nat) (r : List Char) :
    cpp_unescape_fuel (f + 1) ('\\' :: '"' :: r) =
      (cpp_unescape_fuel f r).map (fun l => '"' :: l) := rfl

/-- Decoding step: a plain character passes through. -/
theorem cpp_unescape_fuel_step_plain (f : Nat) (c : Char) (r : List Char)
    (h1 : ¬ c = '\\') (h2 : ¬ c = '"') (h3 : ¬ c = '\n') :
    cpp_unescape_fuel (f + 1) (c :: r) =
      (cpp_unescape_fuel f r).map (fun l => c :: l) := by
  conv_lhs => unfold cpp_unescape_fuel
  rw [if_neg h1, if_neg (not_or.mpr ⟨h2, h3⟩)]

/-- Round trip under a sufficient step budget: Rust's `escape_default`, applied
to a string of printable ASCII, tab, newline and carriage-return characters,
produces a C++ string-literal body that decodes back to the original
characters. -/
theorem escape_roundtrip_fuel : ∀ (l : List Char) (fuel : Nat),
    (l.flatMap (fun c => (char_escape_default c).data)).length ≤ fuel →
    (∀ c ∈ l, (0x20 ≤ c.toNat ∧ c.toNat ≤ 0x7e) ∨ c = '\t' ∨ c = '\n' ∨ c = '\r') →
    cpp_unescape_fuel fuel (l.flatMap (fun c => (char_escape_default c).data)) =
      some l := by
  intro l
  induction l with
  | nil => intro fuel _ _; cases fuel <;> rfl
  | cons c rest ih =>
    intro fuel hlen hsafe
    have hc := hsafe c (List.mem_cons_self _ _)
    have hsafe' := fun c' hc' => hsafe c' (List.mem_cons_of_mem _ hc')
    rw [List.flatMap_cons] at hlen ⊢
    set E := rest.flatMap (fun c => (char_escape_default c).data) with hEdef
    by_cases h1 : c = '\t'
    · subst h1
      have hd : (char_escape_default '\t').data = ['\\', 't'] := rfl
      rw [hd] at hlen ⊢
      rw [List.length_append] at hlen
      have hlE : 2 + E.length ≤ fuel := by
        have h2l : (['\\', 't'] : List Char).length = 2 := rfl
        omega
      cases fuel with
      | zero => omega
      | succ f =>
        rw [show ['\\', 't'] ++ E = '\\' :: 't' :: E from rfl]
        rw [cpp_unescape_fuel_step_t]
        rw [ih f (by omega) hsafe']
        rfl
    · by_cases h2 : c = '\r'
      · subst h2
        have hd : (char_escape_default '\r').data = ['\\', 'r'] := rfl
        rw [hd] at hlen ⊢
        rw [List.length_append] at hlen
        have hlE : 2 + E.length ≤ fuel := by
          have h2l : (['\\', 'r'] : List Char).length = 2 := rfl
          omega
        cases fuel with
        | zero => omega
        | succ f =>
          rw [show ['\\', 'r'] ++ E = '\\' :: 'r' :: E from rfl]
          rw [cpp_unescape_fuel_step_r]
          rw [ih f (by omega) hsafe']
          rfl
      · by_cases h3 : c = '\n'
        · subst h3
          have hd : (char_escape_default '\n').data = ['\\', 'n'] := rfl
          rw [hd] at hlen ⊢
          rw [List.length_append] at hlen
          have hlE : 2 + E.length ≤ fuel := by
            have h2l : (['\\', 'n'] : List Char).length = 2 := rfl
            omega
          cases fuel with
          | zero => omega
          | succ f =>
            rw [show ['\\', 'n'] ++ E = '\\' :: 'n' :: E from rfl]
            rw [cpp_unescape_fuel_step_n]
            rw [ih f (by omega) hsafe']
            rfl
        · by_cases h4 : c = '\\'
          · subst h4
            have hd : (char_escape_default '\\').data = ['\\', '\\'] := rfl
            rw [hd] at hlen ⊢
            rw [List.length_append] at hlen
            have hlE : 2 + E.length ≤ fuel := by
              have h2l : (['\\', '\\'] : List Char).length = 2 := rfl
              omega
            cases fuel with
            | zero => omega
            | succ f =>
              rw [show ['\\', '\\'] ++ E = '\\' :: '\\' :: E from rfl]
              rw [cpp_unescape_fuel_step_bs]
              rw [ih f (by omega) hsafe']
              rfl
          · by_cases h5 : c = Char.ofNat 0x27
            · subst h5
              have hd : (char_escape_default (Char.ofNat 0x27)).data = ['\\', Char.ofNat 0x27] := rfl
              rw [hd] at hlen ⊢
              rw [List.length_append] at hlen
              have hlE : 2 + E.length ≤ fuel := by
                have h2l : (['\\', Char.ofNat 0x27] : List Char).length = 2 := rfl
                omega
              cases fuel with
              | zero => omega
              | succ f =>
                rw [show ['\\', Char.ofNat 0x27] ++ E = '\\' :: Char.ofNat 0x27 :: E from rfl]
                rw [cpp_unescape_fuel_step_apos]
                rw [ih f (by omega) hsafe']
                rfl
            · by_cases h6 : c = '"'
              · subst h6
                have hd : (char_escape_default '"').data = ['\\', '"'] := rfl
                rw [hd] at hlen ⊢
                rw [List.length_append] at hlen
                have hlE : 2 + E.length ≤ fuel := by
                  have h2l : (['\\', '"'] : List Char).length = 2 := rfl
                  omega
                cases fuel with
                | zero => omega
                | succ f =>
                  rw [show ['\\', '"'] ++ E = '\\' :: '"' :: E from rfl]
                  rw [cpp_unescape_fuel_step_quote]
                  rw [ih f (by omega) hsafe']
                  rfl
              · have hp : 0x20 ≤ c.toNat ∧ c.toNat ≤ 0x7e := by
                  rcases hc with hp | hx | hx | hx
                  · exact hp
                  · exact absurd hx h1
                  · exact absurd hx h3
                  · exact absurd hx h2
                have hd : (char_escape_default c).data = [c] := by
                  unfold char_escape_default
                  rw [if_neg h1, if_neg h2, if_neg h3, if_neg h4, if_neg h5, if_neg h6,
                    if_pos hp]
                  rfl
                rw [hd] at hlen ⊢
                rw [List.length_append] at hlen
                have hlE : 1 + E.length ≤ fuel := by
                  have h1l : ([c] : List Char).length = 1 := rfl
                  omega
                cases fuel with
                | zero => omega
                | succ f =>
                  rw [show [c] ++ E = c :: E from rfl]
                  rw [cpp_unescape_fuel_step_plain f c _ h4 h6 h3]
                  rw [ih f (by omega) hsafe']
                  rfl

/-- C7 counterexample: the string literal consisting of the single control
character U+0001 is escaped by the generator in Rust's brace-delimited `\u`
form, which is not a C++ escape sequence, so the emitted literal body does not
decode as a C++ string literal. -/
theorem claim_C7_counterexample :
    compile_expression (.StringLiteral (String.singleton (Char.ofNat 1))) =
      "sixtyfps::SharedString(\"\\u\x7b1\x7d\")" ∧
    cpp_unescape ("\\u\x7b1\x7d").data = none := by
  constructor <;> decide

/-- C7 as amended: for string literals whose characters are printable ASCII,
tab, newline or carriage return, `compile_expression` emits the native string
construction around the escaped content, and that content is valid C++
string-literal escaping — it decodes back to the original characters; a
character outside this set is emitted in Rust's `\u` form, which C++ string
syntax does not accept (see the counterexample). -/
theorem claim_C7_string_literal_escaping (s : String)
    (hs : ∀ c ∈ s.data,
      (0x20 ≤ c.toNat ∧ c.toNat ≤ 0x7e) ∨ c = '\t' ∨ c = '\n' ∨ c = '\r') :
    compile_expression (.StringLiteral s) =
      "sixtyfps::SharedString(\"" ++ escape_default s ++ "\")" ∧
    cpp_unescape (escape_default s).data = some s.data := by
  refine ⟨rfl, ?_⟩
  show cpp_unescape_fuel (escape_default s).data.length (escape_default s).data =
    some s.data
  have hE : (escape_default s).data =
      s.data.flatMap (fun c => (char_escape_default c).data) := rfl
  rw [hE]
  exact escape_roundtrip_fuel s.data _ le_rfl hs

/-- Witness for C7 as amended, on a literal holding a quote and a newline. -/
theorem claim_C7_string_literal_escaping_witness :
    compile_expression (.StringLiteral "a\"\n") =
      "sixtyfps::SharedString(\"" ++ escape_default "a\"\n" ++ "\")" ∧
    cpp_unescape (escape_default "a\"\n").data = some ("a\"\n").data :=
  claim_C7_string_literal_escaping "a\"\n" (by decide)
